import Mathlib

/-!
Verification development for the haipproxy proxy scoring, ranking and
selection core (`haipproxy/client.py`).  The Python code is shallowly
embedded: counters are `ℤ`, float quantities are `ℝ`, redis hashes are
Lean structures, the redis store is an association list, and the pool is
a list of `(score, key)` pairs.
-/

namespace Haipproxy

/-- Record of per-proxy counters, as read by `ProxyClient.cal_score` from
the redis hash (fields `used_count`, `success_count`, `total_seconds`,
`last_fail`, `timestamp`, `score`). -/
structure ProxyStat where
  used_count : ℤ
  success_count : ℤ
  total_seconds : ℤ
  last_fail : String
  timestamp : ℤ
  score : ℝ

/-- Replace the `score` field of a record, modelling
`redis_conn.hset(pkey, "score", score)`. -/
def setScore (st : ProxyStat) (s : ℝ) : ProxyStat :=
  ⟨st.used_count, st.success_count, st.total_seconds, st.last_fail, st.timestamp, s⟩

/-- Rounding to two decimal places, modelling Python `round(x, 2)` over the
reals (Python ties-to-even and IEEE float effects are not modelled; no claim
in this development depends on an exact half tie). -/
noncomputable def round2 (x : ℝ) : ℝ :=
  ((round (100 * x) : ℤ) : ℝ) / 100

/-- Argument of the final `round(..., 2)` in `ProxyClient.cal_score` (the
pre-rounding weighted sum of the five signals), for a record with
`success_count ≠ 0`. -/
noncomputable def preScore (now : ℝ) (st : ProxyStat) : ℝ :=
  2 * (st.success_count : ℝ) / (st.used_count : ℝ)
    + 0.5 * (st.success_count : ℝ)
    + 0.25 * (16.56 - Real.log (now - (st.timestamp : ℝ)))
    + 1 * (if st.last_fail = "" then (2 : ℝ) else -1)
    + 0.20 * max 0 (15 - (st.total_seconds : ℝ) / (st.success_count : ℝ))

/-- Embedding of `ProxyClient.cal_score`: `-used_count` when
`success_count == 0`, otherwise the rounded weighted sum; `time.time()` is
passed explicitly as `now`. -/
noncomputable def cal_score (now : ℝ) (st : ProxyStat) : ℝ :=
  if st.success_count = 0 then -(st.used_count : ℝ) else round2 (preScore now st)

/-- Scorer as worded by the specification (§4.1 / claim C1): `-used_count`
for never-succeeded records, otherwise
`round(2*success_count/used_count + 0.5*success_count
+ 0.25*(C - ln(now - timestamp)) + (2 if last_fail empty else -1)
+ 0.2*max(0, 15 - total_seconds/success_count), 2)` with `C = 16.56`. -/
noncomputable def claimScore (now : ℝ) (st : ProxyStat) : ℝ :=
  if st.success_count = 0 then -(st.used_count : ℝ)
  else round2 (2 * (st.success_count : ℝ) / (st.used_count : ℝ)
    + 0.5 * (st.success_count : ℝ)
    + 0.25 * (16.56 - Real.log (now - (st.timestamp : ℝ)))
    + (if st.last_fail = "" then (2 : ℝ) else -1)
    + 0.2 * max 0 (15 - (st.total_seconds : ℝ) / (st.success_count : ℝ)))

/-- Model of Python `str.lower()` as a character-wise lowering of the
string's characters. -/
def pyLower (s : String) : String :=
  ⟨s.data.map Char.toLower⟩

/-- Model of Python `str.startswith(pre)`. -/
def pyStartsWith (s pre : String) : Bool :=
  decide (s.data.take pre.data.length = pre.data)

/-- Protocol filter computed at the top of `ProxyClient.proxy_gen`:
`protocol.lower()`, with `":"` appended when non-empty. -/
def protFilter (protocol : String) : String :=
  let p := pyLower protocol
  if p = "" then p else p ++ ":"

/-- Yields of one complete uninterrupted pass of the `proxy_gen` while-loop
over the working set, in list order, for a given already-computed filter. -/
def gen_pass (prot : String) : List (ℝ × String) → List String
  | [] => []
  | e :: rest =>
    if pyStartsWith e.2 prot then e.2 :: gen_pass prot rest else gen_pass prot rest

/-- Sequence of proxy keys yielded by a full fresh pass of
`ProxyClient.proxy_gen(protocol)` over the working set `ppool`. -/
def proxy_gen (protocol : String) (ppool : List (ℝ × String)) : List String :=
  gen_pass (protFilter protocol) ppool

/-- Outcome of one resumption of the `proxy_gen` generator body: either a
yielded key together with the new value of the shared `self.idx`, or the
explicit `raise StopIteration` on the exhaustion path (which also resets the
shared `self.idx` to `-1`). -/
inductive DrawResult where
  | yield (k : String) (idx : ℤ)
  | raiseStop
deriving DecidableEq

/-- Scan of the while-loop body: starting at absolute position `n` over the
remaining entries `l`, find the next entry whose key starts with the filter,
returning the key and its absolute position. -/
def scanStep (prot : String) : List (ℝ × String) → Nat → Option (String × Nat)
  | [], _ => none
  | e :: rest, n =>
    if pyStartsWith e.2 prot then some (e.2, n) else scanStep prot rest (n + 1)

/-- One resumption of `ProxyClient.proxy_gen` with the process-wide shared
index `self.idx`: advance past position `idx`, yield the next matching key
(setting `self.idx` to its position), or raise at exhaustion (resetting
`self.idx` to `-1`). -/
def proxy_gen_step (protocol : String) (ppool : List (ℝ × String)) (idx : ℤ) : DrawResult :=
  match scanStep (protFilter protocol) (ppool.drop (idx + 1).toNat) (idx + 1).toNat with
  | some kn => DrawResult.yield kn.1 (kn.2 : ℤ)
  | none => DrawResult.raiseStop

/-- Working set used to exhibit the shared-cursor interference. -/
def sharedPool : List (ℝ × String) :=
  [((1 : ℝ), "http://a:1"), ((1 : ℝ), "http://b:2")]

/-- Occurrence check of `pat` as a contiguous run inside a character list. -/
def listHasInfix (pat : List Char) : List Char → Bool
  | [] => decide (pat = [])
  | c :: rest => decide ((c :: rest).take pat.length = pat) || listHasInfix pat rest

/-- Match of a key against the redis glob pattern "http*://*" used by
`scan_iter` in `_fill_pool` and by `del_all_fails`: the key starts with
"http" and contains "://" afterwards. -/
def matchGlobHttp (k : String) : Bool :=
  pyStartsWith k "http" && listHasInfix "://".data (k.data.drop 4)

/-- Order in which Python's `list.sort(reverse=True)` arranges the
`(score, key)` tuples of the pool: `a` may precede `b` iff `a` is
lexicographically at least `b`, i.e. descending score with ties broken by
descending key. -/
def poolOrder (a b : ℝ × String) : Prop :=
  b.1 < a.1 ∨ (b.1 = a.1 ∧ b.2 ≤ a.2)

noncomputable instance : DecidableRel poolOrder := fun a b => by
  unfold poolOrder
  infer_instance

instance : IsTrans (ℝ × String) poolOrder := by
  constructor
  intro a b c hab hbc
  rcases hab with h1 | ⟨h1, h2⟩ <;> rcases hbc with h3 | ⟨h3, h4⟩
  · exact Or.inl (lt_trans h3 h1)
  · exact Or.inl (h3 ▸ h1)
  · exact Or.inl (lt_of_lt_of_le h3 (le_of_eq h1))
  · exact Or.inr ⟨h3.trans h1, h4.trans h2⟩

instance : IsTotal (ℝ × String) poolOrder := by
  constructor
  intro a b
  rcases lt_trichotomy a.1 b.1 with h | h | h
  · exact Or.inr (Or.inl h)
  · rcases le_total a.2 b.2 with h2 | h2
    · exact Or.inr (Or.inr ⟨h, h2⟩)
    · exact Or.inl (Or.inr ⟨h.symm, h2⟩)
  · exact Or.inl (Or.inl h)

/-- Descending sort of the pool, modelling `self.ppool.sort(reverse=True)`. -/
noncomputable def sortDesc (l : List (ℝ × String)) : List (ℝ × String) :=
  List.insertionSort poolOrder l

/-- Store update performed by one `_fill_pool` loop iteration on a record:
a scanned (pattern-matching) record gets its recomputed score written back;
other records are untouched. -/
noncomputable def updRecord (now : ℝ) (e : String × ProxyStat) : String × ProxyStat :=
  if matchGlobHttp e.1 then (e.1, setScore e.2 (cal_score now e.2)) else e

/-- Pool entry contributed by one `_fill_pool` loop iteration: scanned
records whose fresh score strictly exceeds `LOWEST_SCORE` contribute
`(score, key)`. -/
noncomputable def pickEntry (now LOWEST_SCORE : ℝ) (e : String × ProxyStat) :
    Option (ℝ × String) :=
  if matchGlobHttp e.1 then
    (if LOWEST_SCORE < cal_score now e.2 then some (cal_score now e.2, e.1) else none)
  else none

/-- Scan loop of `ProxyClient._fill_pool` over the store: for every key
matching "http*://*", recompute the score, write it back (`hset`), and
append `(score, key)` to the pool when the score strictly exceeds
`LOWEST_SCORE`.  Returns the updated store and the appended entries in scan
order. -/
noncomputable def fill_scan (now LOWEST_SCORE : ℝ) :
    List (String × ProxyStat) → List (String × ProxyStat) × List (ℝ × String)
  | [] => ([], [])
  | e :: rest =>
    let r := fill_scan now LOWEST_SCORE rest
    if matchGlobHttp e.1 then
      ((e.1, setScore e.2 (cal_score now e.2)) :: r.1,
        (if LOWEST_SCORE < cal_score now e.2 then [(cal_score now e.2, e.1)] else []) ++ r.2)
    else (e :: r.1, r.2)

/-- Embedding of `ProxyClient._fill_pool`: scan the store, then sort the
extended pool descending (`self.ppool.sort(reverse=True)`); `ppool` is the
in-memory pool the appends extend (empty on the first use). -/
noncomputable def fill_pool (now LOWEST_SCORE : ℝ) (store : List (String × ProxyStat))
    (ppool : List (ℝ × String)) : List (String × ProxyStat) × List (ℝ × String) :=
  ((fill_scan now LOWEST_SCORE store).1,
    sortDesc (ppool ++ (fill_scan now LOWEST_SCORE store).2))

/-- Modelled from the spec: the ordering claimed in §4.2 — "Sort output
descending by score; ties broken by key order" — read with ties in
ascending key order. -/
def specTieRel (a b : ℝ × String) : Prop :=
  b.1 < a.1 ∨ (b.1 = a.1 ∧ a.2 ≤ b.2)

/-- Store with two equal-scoring records (both never succeeded, one use
each), used to exhibit the tie-break order of the rebuilt pool. -/
def tieStore : List (String × ProxyStat) :=
  [("http://a:1", ⟨1, 0, 0, "", 0, 0⟩), ("http://b:2", ⟨1, 0, 0, "", 0, 0⟩)]

/-- Process-lifetime feedback sets `self.good` and `self.dead` of
`ProxyClient`. -/
structure FeedbackState where
  good : Finset String
  dead : Finset String

/-- Embedding of `ProxyClient.mark_dead`: discard the proxy from `good` when
present, then add it to `dead`. -/
def mark_dead (st : FeedbackState) (proxy : String) : FeedbackState :=
  ⟨if proxy ∈ st.good then st.good.erase proxy else st.good, insert proxy st.dead⟩

/-- Embedding of `ProxyClient.mark_good`: add the proxy to `good` (nothing
is removed from `dead`). -/
def mark_good (st : FeedbackState) (proxy : String) : FeedbackState :=
  ⟨insert proxy st.good, st.dead⟩

/-- Feedback state reached from empty sets by
`mark_good(x); mark_dead(x); mark_good(x)` for `x = "http://a:1"`. -/
def fbSeq : FeedbackState :=
  mark_good (mark_dead (mark_good ⟨∅, ∅⟩ "http://a:1") "http://a:1") "http://a:1"

/-- Embedding of `ProxyClient.del_all_fails`.  Modelled from the spec for
the store traversal: `RedisOps.map_all(op, need_op, match)` lives in
`haipproxy/utils.py`, which is not under src/; per §4.5 it applies the
operation to every record whose key matches the pattern and whose hash
satisfies the predicate, so with `op = "delete"` exactly those records are
removed.  The predicate `need_op` and the pattern "http*://*" are from the
source of `del_all_fails`: delete iff `score ≤ LOWEST_SCORE - 2`. -/
noncomputable def del_all_fails (LOWEST_SCORE : ℝ) (store : List (String × ProxyStat)) :
    List (String × ProxyStat) :=
  store.filter (fun e => !(matchGlobHttp e.1 && decide (e.2.score ≤ LOWEST_SCORE - 2)))

/-- Value returned by the Python function `del_all_fails`: its body has no
return statement, so the call evaluates to `None` (here `none`) no matter
how many records were deleted. -/
def del_all_fails_ret : Option ℕ :=
  none

/-- Store used to exhibit pruning: one record decisively failed
(stored score −6), one record healthy (stored score 0). -/
def pruneStore : List (String × ProxyStat) :=
  [("http://a:1", ⟨1, 0, 0, "", 0, -6⟩), ("http://b:2", ⟨1, 1, 1, "", 0, 0⟩)]

/-- Raw redis hash as returned by `hgetall`: each expected field may be
absent. -/
structure RawStat where
  used_count : Option ℤ
  success_count : Option ℤ
  total_seconds : Option ℤ
  last_fail : Option String
  timestamp : Option ℤ
  score : Option ℝ

/-- Field lookup `stat[b"field"]`: raises `KeyError` (modelled as
`Except.error` carrying the field name) when the field is absent. -/
def getField {α : Type} (field : String) : Option α → Except String α
  | some v => Except.ok v
  | none => Except.error field

/-- Embedding of `ProxyClient.cal_score` on a raw hash: the six fields are
read in source order, each read able to raise `KeyError`; with all fields
present the score is computed as `cal_score`. -/
noncomputable def cal_scoreE (now : ℝ) (stat : RawStat) : Except String ℝ := do
  let u ← getField "used_count" stat.used_count
  let s ← getField "success_count" stat.success_count
  let t ← getField "total_seconds" stat.total_seconds
  let lf ← getField "last_fail" stat.last_fail
  let ts ← getField "timestamp" stat.timestamp
  let sc ← getField "score" stat.score
  return cal_score now ⟨u, s, t, lf, ts, sc⟩

/-- Write the recomputed score into a raw hash (`hset`). -/
def setScoreRaw (r : RawStat) (s : ℝ) : RawStat :=
  ⟨r.used_count, r.success_count, r.total_seconds, r.last_fail, r.timestamp, some s⟩

/-- Scan loop of `_fill_pool` over raw hashes: `_fill_pool` has no
try/except, so an uncaught `KeyError` from `cal_score` aborts the whole
scan.  On the error path only the propagated exception is modelled (the
in-place store writes and pool appends made before the failure are lost
with the aborted call). -/
noncomputable def fill_scanE (now LOWEST_SCORE : ℝ) :
    List (String × RawStat) → Except String (List (String × RawStat) × List (ℝ × String))
  | [] => Except.ok ([], [])
  | e :: rest =>
    if matchGlobHttp e.1 then
      match cal_scoreE now e.2 with
      | Except.error err => Except.error err
      | Except.ok s =>
        match fill_scanE now LOWEST_SCORE rest with
        | Except.error err => Except.error err
        | Except.ok r =>
          Except.ok ((e.1, setScoreRaw e.2 s) :: r.1,
            (if LOWEST_SCORE < s then [(s, e.1)] else []) ++ r.2)
    else
      match fill_scanE now LOWEST_SCORE rest with
      | Except.error err => Except.error err
      | Except.ok r => Except.ok ((e.1, e.2) :: r.1, r.2)

/-- A raw hash is complete when every expected field is present. -/
def isComplete (r : RawStat) : Prop :=
  r.used_count.isSome ∧ r.success_count.isSome ∧ r.total_seconds.isSome
    ∧ r.last_fail.isSome ∧ r.timestamp.isSome ∧ r.score.isSome

/-- Store holding a well-formed record followed by a record missing its
`used_count` field. -/
def rawStore : List (String × RawStat) :=
  [("http://a:1", ⟨some 1, some 1, some 1, some "", some 0, some 0⟩),
   ("http://b:2", ⟨none, some 1, some 1, some "", some 0, some 0⟩)]

/-- C1: the scorer returns `-used_count` when `success_count = 0` (hence `0`
when both counters are `0`); otherwise it returns the rounded weighted sum
with constant `C = 16.56` exactly as the specification words it; and the
scenario record `{used_count:10, success_count:5, total_seconds:30,
last_fail:"", timestamp: now-60}` scores
`round(1 + 2.5 + 0.25*(16.56 - ln 60) + 2 + 1.8, 2)`. -/
theorem C1_scorer_formula :
    (∀ (now : ℝ) (st : ProxyStat), st.success_count = 0 →
      cal_score now st = -(st.used_count : ℝ))
    ∧ (∀ (now : ℝ) (st : ProxyStat), st.used_count = 0 → st.success_count = 0 →
      cal_score now st = 0)
    ∧ (∀ (now : ℝ) (st : ProxyStat), cal_score now st = claimScore now st)
    ∧ (∀ t : ℤ, cal_score ((t : ℝ) + 60) ⟨10, 5, 30, "", t, 0⟩
        = round2 (1 + 2.5 + 0.25 * (16.56 - Real.log 60) + 2 + 1.8)) := by
  refine ⟨?_, ?_, ?_, ?_⟩
  · intro now st h
    simp [cal_score, h]
  · intro now st hu hs
    simp [cal_score, hs, hu]
  · intro now st
    unfold cal_score claimScore preScore
    split_ifs with h1 h2
    · rfl
    · congr 1
      ring_nf
    · congr 1
      ring_nf
  · intro t
    have hne : ¬((⟨10, 5, 30, "", t, 0⟩ : ProxyStat).success_count = 0) := by
      norm_num
    unfold cal_score
    rw [if_neg hne]
    congr 1
    unfold preScore
    have hlog : ((t : ℝ) + 60) - (((⟨10, 5, 30, "", t, 0⟩ : ProxyStat).timestamp : ℤ) : ℝ) = 60 := by
      push_cast
      ring
    rw [hlog]
    have hmax : max (0 : ℝ)
        (15 - (((⟨10, 5, 30, "", t, 0⟩ : ProxyStat).total_seconds : ℤ) : ℝ)
          / (((⟨10, 5, 30, "", t, 0⟩ : ProxyStat).success_count : ℤ) : ℝ)) = 9 := by
      rw [max_eq_right] <;> norm_num
    rw [hmax]
    norm_num

/-- Witness for C1 at concrete records: a never-succeeded record with
`used_count = 3` scores `-3`, the all-zero record scores `0`, the code
formula and the specification formula agree on a concrete record, and the
scenario record at `t = 5` evaluates as claimed. -/
theorem C1_scorer_formula_witness :
    cal_score 0 ⟨3, 0, 7, "x", 0, 0⟩ = -((3 : ℤ) : ℝ)
    ∧ cal_score 0 ⟨0, 0, 0, "", 0, 0⟩ = 0
    ∧ cal_score 0 ⟨4, 2, 8, "", -9, 1⟩ = claimScore 0 ⟨4, 2, 8, "", -9, 1⟩
    ∧ cal_score (((5 : ℤ) : ℝ) + 60) ⟨10, 5, 30, "", 5, 0⟩
        = round2 (1 + 2.5 + 0.25 * (16.56 - Real.log 60) + 2 + 1.8) :=
  ⟨C1_scorer_formula.1 0 ⟨3, 0, 7, "x", 0, 0⟩ rfl,
   C1_scorer_formula.2.1 0 ⟨0, 0, 0, "", 0, 0⟩ rfl rfl,
   C1_scorer_formula.2.2.1 0 ⟨4, 2, 8, "", -9, 1⟩,
   C1_scorer_formula.2.2.2 5⟩

/-- Rounding to two decimals is monotone. -/
theorem round2_mono {x y : ℝ} (h : x ≤ y) : round2 x ≤ round2 y := by
  unfold round2
  have h1 : round (100 * x) ≤ round (100 * y) := by
    rw [round_eq, round_eq]
    exact Int.floor_mono (by linarith)
  have h2 : ((round (100 * x) : ℤ) : ℝ) ≤ ((round (100 * y) : ℤ) : ℝ) := by
    exact_mod_cast h1
  linarith

/-- Evaluating the pre-rounding sum at `now = timestamp + a` makes the
freshness argument exactly the age `a`. -/
theorem preScore_age (st : ProxyStat) (a : ℝ) :
    preScore ((st.timestamp : ℝ) + a) st
      = 2 * (st.success_count : ℝ) / (st.used_count : ℝ)
        + 0.5 * (st.success_count : ℝ)
        + 0.25 * (16.56 - Real.log a)
        + 1 * (if st.last_fail = "" then (2 : ℝ) else -1)
        + 0.20 * max 0 (15 - (st.total_seconds : ℝ) / (st.success_count : ℝ)) := by
  unfold preScore
  rw [show ((st.timestamp : ℝ) + a) - (st.timestamp : ℝ) = a from by ring]

/-- C5: holding all counter fields fixed, the score is non-increasing in the
age `now - timestamp` (for ages `0 < a1 ≤ a2` the score at age `a1` is at
least the score at age `a2`), and for a record with `success_count > 0` the
pre-rounding value is strictly decreasing in the age. -/
theorem C5_score_non_increasing_in_age :
    ∀ (st : ProxyStat) (a1 a2 : ℝ), 0 < a1 → a1 ≤ a2 →
      cal_score ((st.timestamp : ℝ) + a2) st ≤ cal_score ((st.timestamp : ℝ) + a1) st
      ∧ (0 < st.success_count → a1 < a2 →
          preScore ((st.timestamp : ℝ) + a2) st < preScore ((st.timestamp : ℝ) + a1) st) := by
  intro st a1 a2 h0 h12
  have hlog : Real.log a1 ≤ Real.log a2 := Real.log_le_log h0 h12
  constructor
  · unfold cal_score
    split_ifs with h
    · exact le_refl _
    · apply round2_mono
      rw [preScore_age, preScore_age]
      linarith
  · intro _ hlt
    have hstrict : Real.log a1 < Real.log a2 := Real.log_lt_log h0 hlt
    rw [preScore_age, preScore_age]
    linarith

/-- Witness for C5: for the scenario record, age 2 scores no more than age 1,
and the pre-rounding value strictly decreases from age 1 to age 2. -/
theorem C5_score_non_increasing_in_age_witness :
    cal_score ((((⟨10, 5, 30, "", 0, 0⟩ : ProxyStat).timestamp : ℤ) : ℝ) + 2)
        ⟨10, 5, 30, "", 0, 0⟩
      ≤ cal_score ((((⟨10, 5, 30, "", 0, 0⟩ : ProxyStat).timestamp : ℤ) : ℝ) + 1)
        ⟨10, 5, 30, "", 0, 0⟩
    ∧ preScore ((((⟨10, 5, 30, "", 0, 0⟩ : ProxyStat).timestamp : ℤ) : ℝ) + 2)
        ⟨10, 5, 30, "", 0, 0⟩
      < preScore ((((⟨10, 5, 30, "", 0, 0⟩ : ProxyStat).timestamp : ℤ) : ℝ) + 1)
        ⟨10, 5, 30, "", 0, 0⟩ :=
  ⟨(C5_score_non_increasing_in_age ⟨10, 5, 30, "", 0, 0⟩ 1 2 one_pos one_le_two).1,
   (C5_score_non_increasing_in_age ⟨10, 5, 30, "", 0, 0⟩ 1 2 one_pos one_le_two).2
     (by norm_num) one_lt_two⟩

/-- Lowering a string is empty only for the empty string. -/
theorem pyLower_eq_empty {p : String} (h : pyLower p = "") : p = "" := by
  unfold pyLower at h
  have hd : p.data.map Char.toLower = [] := congrArg String.data h
  rcases List.map_eq_nil_iff.mp hd with h2
  cases p
  simp_all

/-- Every string starts with the empty prefix. -/
theorem pyStartsWith_empty (s : String) : pyStartsWith s "" = true := by
  unfold pyStartsWith
  simp

/-- The pass collects exactly the working-set entries whose key matches the
filter, in order. -/
theorem gen_pass_eq (prot : String) (l : List (ℝ × String)) :
    gen_pass prot l = (l.filter (fun e => pyStartsWith e.2 prot)).map (fun e => e.2) := by
  induction l with
  | nil => rfl
  | cons e rest ih =>
    by_cases h : pyStartsWith e.2 prot = true
    · simp [gen_pass, h, ih]
    · simp only [Bool.not_eq_true] at h
      simp [gen_pass, h, ih]

/-- C3: a fresh selection pass with a non-empty protocol filter yields only
keys beginning with `lowercase(p) ++ ":"`; with the empty filter it yields
every entry of the working set; and every yield occurs in working-set
(rank) order — the yield sequence is a sublist of the ranked key sequence. -/
theorem C3_selection_filter_and_order :
    ∀ ppool : List (ℝ × String),
      (∀ p : String, p ≠ "" → ∀ k ∈ proxy_gen p ppool,
        pyStartsWith k (pyLower p ++ ":") = true)
      ∧ proxy_gen "" ppool = ppool.map (fun e => e.2)
      ∧ (∀ p : String, (proxy_gen p ppool).Sublist (ppool.map (fun e => e.2))) := by
  intro ppool
  refine ⟨?_, ?_, ?_⟩
  · intro p hp k hk
    have hlow : pyLower p ≠ "" := fun h => hp (pyLower_eq_empty h)
    unfold proxy_gen at hk
    simp only [protFilter] at hk
    rw [if_neg hlow] at hk
    rw [gen_pass_eq] at hk
    rcases List.mem_map.mp hk with ⟨e, he, rfl⟩
    exact (List.mem_filter.mp he).2
  · unfold proxy_gen
    rw [show protFilter "" = "" from by decide]
    rw [gen_pass_eq]
    have hf : List.filter (fun e => pyStartsWith e.2 "") ppool = ppool :=
      List.filter_eq_self.mpr fun e _ => pyStartsWith_empty e.2
    rw [hf]
  · intro p
    unfold proxy_gen
    rw [gen_pass_eq]
    exact (List.filter_sublist ppool).map (fun e => e.2)

/-- Witness for C3: on a concrete working set, the pass filtered by "HTTP"
yields a key starting with "http:", namely the first entry. -/
theorem C3_selection_filter_and_order_witness :
    pyStartsWith "http://a:1" (pyLower "HTTP" ++ ":") = true :=
  (C3_selection_filter_and_order [((1 : ℝ), "http://a:1"), (1, "https://b:2")]).1
    "HTTP" (by decide) "http://a:1" (by decide)

/-- C6: the exhaustion path of `proxy_gen` — reaching the end of the working
set without a further match, or an empty working set — executes an explicit
`raise StopIteration` inside the generator body (after resetting the shared
index), rather than simply ending the generator. -/
theorem C6_exhaustion_path_raises :
    proxy_gen_step "" [((1 : ℝ), "http://a:1")] 0 = DrawResult.raiseStop
    ∧ proxy_gen_step "" ([] : List (ℝ × String)) (-1) = DrawResult.raiseStop := by
  exact ⟨by decide, by decide⟩

/-- Characterization of the loop scan: a successful scan starting at
absolute position `n` returns a position at or past `n` holding a matching
entry. -/
theorem scanStep_some (prot : String) :
    ∀ (l : List (ℝ × String)) (n m : ℕ) (k : String),
      scanStep prot l n = some (k, m) →
        n ≤ m ∧ ∃ p : ℝ × String, l[m - n]? = some p ∧ p.2 = k
          ∧ pyStartsWith k prot = true := by
  intro l
  induction l with
  | nil =>
    intro n m k h
    simp [scanStep] at h
  | cons e rest ih =>
    intro n m k h
    unfold scanStep at h
    by_cases hs : pyStartsWith e.2 prot = true
    · rw [if_pos hs] at h
      simp only [Option.some.injEq, Prod.mk.injEq] at h
      obtain ⟨hk, hm⟩ := h
      subst hk
      subst hm
      exact ⟨le_refl n, e, by simp, rfl, hs⟩
    · rw [if_neg hs] at h
      obtain ⟨hle, p, hget, hpk, hmatch⟩ := ih (n + 1) m k h
      refine ⟨by omega, p, ?_, hpk, hmatch⟩
      have hidx : m - n = (m - (n + 1)) + 1 := by omega
      rw [hidx]
      simpa using hget

/-- One resumption of the generator from shared index `idx` that yields does
so from a strictly later position, which becomes the new shared index. -/
theorem proxy_gen_step_yield (protocol : String) (ppool : List (ℝ × String))
    (idx : ℤ) (k : String) (j : ℤ)
    (h : proxy_gen_step protocol ppool idx = DrawResult.yield k j) :
    idx < j
    ∧ (∃ p : ℝ × String, ppool[j.toNat]? = some p ∧ p.2 = k
        ∧ pyStartsWith k (protFilter protocol) = true) := by
  unfold proxy_gen_step at h
  rcases hscan : scanStep (protFilter protocol) (ppool.drop (idx + 1).toNat)
      (idx + 1).toNat with _ | kn
  · rw [hscan] at h
    simp at h
  · rw [hscan] at h
    simp only [DrawResult.yield.injEq] at h
    obtain ⟨hk, hj⟩ := h
    obtain ⟨hle, p, hget, hpk, hmatch⟩ :=
      scanStep_some (protFilter protocol) _ _ _ _ hscan
    have hdrop : (ppool.drop (idx + 1).toNat)[kn.2 - (idx + 1).toNat]?
        = ppool[(idx + 1).toNat + (kn.2 - (idx + 1).toNat)]? := by
      rw [List.getElem?_drop]
    have habs : (idx + 1).toNat + (kn.2 - (idx + 1).toNat) = kn.2 := by omega
    rw [hdrop, habs] at hget
    constructor
    · omega
    · refine ⟨p, ?_, hk ▸ hpk, hk ▸ hmatch⟩
      have : j.toNat = kn.2 := by omega
      rw [this]
      exact hget

/-- C7 (amended): all `proxy_gen` resumptions read and write the single
shared index `self.idx`; a draw that yields from shared index `idx` yields
the entry at a strictly later position `j` (a matching entry of the working
set), sets the shared index to `j`, and every subsequent draw by any caller
yields from a position strictly past `j` — so entries at or before the
shared index are skipped by all later draws of the pass. -/
theorem C7_shared_index_advances :
    ∀ (protocol : String) (ppool : List (ℝ × String)) (idx : ℤ) (k : String) (j : ℤ),
      proxy_gen_step protocol ppool idx = DrawResult.yield k j →
        idx < j
        ∧ (∃ p : ℝ × String, ppool[j.toNat]? = some p ∧ p.2 = k
            ∧ pyStartsWith k (protFilter protocol) = true)
        ∧ (∀ (k2 : String) (j2 : ℤ),
            proxy_gen_step protocol ppool j = DrawResult.yield k2 j2 → j < j2) :=
  fun protocol ppool idx k j h =>
    ⟨(proxy_gen_step_yield protocol ppool idx k j h).1,
     (proxy_gen_step_yield protocol ppool idx k j h).2,
     fun k2 j2 h2 => (proxy_gen_step_yield protocol ppool j k2 j2 h2).1⟩

/-- Counterexample for C7: two interleaved `select("")` passes over the same
working set share the single `self.idx`.  Caller 1 draws first and gets
"http://a:1" (shared index becomes 0); caller 2 then draws and gets
"http://b:2" (shared index 1); caller 2's next draw hits the exhaustion
path.  Caller 2 therefore observes only ["http://b:2"], which is not the
full matching set ["http://a:1", "http://b:2"]. -/
theorem C7_shared_index_counterexample :
    proxy_gen_step "" sharedPool (-1) = DrawResult.yield "http://a:1" 0
    ∧ proxy_gen_step "" sharedPool 0 = DrawResult.yield "http://b:2" 1
    ∧ proxy_gen_step "" sharedPool 1 = DrawResult.raiseStop
    ∧ proxy_gen "" sharedPool = ["http://a:1", "http://b:2"]
    ∧ ["http://b:2"] ≠ proxy_gen "" sharedPool := by
  refine ⟨by decide, by decide, by decide, by decide, by decide⟩

/-- Witness for C7's amended theorem: drawing from the fresh shared index
`-1` on the concrete working set yields "http://a:1" at position 0 and
advances the shared index. -/
theorem C7_shared_index_advances_witness :
    (-1 : ℤ) < 0
    ∧ (∃ p : ℝ × String, sharedPool[(0 : ℤ).toNat]? = some p ∧ p.2 = "http://a:1"
        ∧ pyStartsWith "http://a:1" (protFilter "") = true)
    ∧ (∀ (k2 : String) (j2 : ℤ),
        proxy_gen_step "" sharedPool 0 = DrawResult.yield k2 j2 → 0 < j2) :=
  C7_shared_index_advances "" sharedPool (-1) "http://a:1" 0 (by decide)

/-- The store after the `_fill_pool` scan is the pointwise score update of
the store scanned. -/
theorem fill_scan_store (now L : ℝ) (store : List (String × ProxyStat)) :
    (fill_scan now L store).1 = store.map (updRecord now) := by
  induction store with
  | nil => rfl
  | cons e rest ih =>
    by_cases h : matchGlobHttp e.1 = true
    · simp only [fill_scan, updRecord, h, if_true, List.map_cons, ih]
    · simp only [fill_scan, updRecord, h, if_false, Bool.false_eq_true, List.map_cons, ih]

/-- The entries appended by the `_fill_pool` scan are exactly the qualifying
`(score, key)` pairs, in scan order. -/
theorem fill_scan_pool (now L : ℝ) (store : List (String × ProxyStat)) :
    (fill_scan now L store).2 = store.filterMap (pickEntry now L) := by
  induction store with
  | nil => rfl
  | cons e rest ih =>
    by_cases h : matchGlobHttp e.1 = true
    · by_cases h2 : L < cal_score now e.2
      · simp only [fill_scan, pickEntry, h, h2, if_true, List.filterMap_cons, ih]
        rfl
      · simp only [fill_scan, pickEntry, h, h2, if_true, if_false, List.filterMap_cons, ih]
        rfl
    · simp only [fill_scan, pickEntry, h, if_false, Bool.false_eq_true, List.filterMap_cons, ih]

/-- C2 (amended): a pool rebuild from an empty in-memory pool writes the
freshly recomputed score back for every scanned record (including records
at or below the minimum threshold); the resulting working set is a
permutation of exactly the scanned records whose new score strictly exceeds
`LOWEST_SCORE`, sorted descending by score with ties between equal scores
broken by descending key order (Python `sort(reverse=True)` on
`(score, key)` tuples); and an empty store yields an empty working set. -/
theorem C2_fill_pool_rebuild :
    ∀ (now L : ℝ) (store : List (String × ProxyStat)),
      (fill_pool now L store []).1 = store.map (updRecord now)
      ∧ ((fill_pool now L store []).2).Perm (store.filterMap (pickEntry now L))
      ∧ List.Sorted poolOrder (fill_pool now L store []).2
      ∧ (store = [] → (fill_pool now L store []).2 = []) := by
  intro now L store
  refine ⟨fill_scan_store now L store, ?_, ?_, ?_⟩
  · have h1 := List.perm_insertionSort poolOrder ([] ++ (fill_scan now L store).2)
    simpa [fill_pool, sortDesc, fill_scan_pool now L store] using h1
  · exact List.sorted_insertionSort poolOrder _
  · intro h
    subst h
    rfl

/-- Witness for C2: rebuilding over the empty store produces the empty
working set. -/
theorem C2_fill_pool_rebuild_witness :
    (fill_pool 0 0 [] []).2 = [] :=
  (C2_fill_pool_rebuild 0 0 []).2.2.2 rfl

/-- Score of the never-succeeded single-use record used in `tieStore`. -/
theorem tie_record_score : cal_score 0 ⟨1, 0, 0, "", 0, 0⟩ = -1 := by
  unfold cal_score
  norm_num

/-- Counterexample for C2's tie-break direction: rebuilding over `tieStore`
(two records with equal score -1 and keys "http://a:1" < "http://b:2")
produces the pool [(-1, "http://b:2"), (-1, "http://a:1")], which is not
sorted with ties in ascending key order as the specification's "ties broken
by key order" reads. -/
theorem C2_tie_order_counterexample :
    ¬ List.Sorted specTieRel (fill_pool 0 (-5) tieStore []).2 := by
  have hpick : ∀ k : String, matchGlobHttp k = true →
      pickEntry 0 (-5) (k, ⟨1, 0, 0, "", 0, 0⟩) = some ((-1 : ℝ), k) := by
    intro k hk
    unfold pickEntry
    rw [if_pos hk, tie_record_score, if_pos (by norm_num : (-5 : ℝ) < -1)]
  have hscan : (fill_scan 0 (-5) tieStore).2
      = [((-1 : ℝ), "http://a:1"), ((-1 : ℝ), "http://b:2")] := by
    rw [fill_scan_pool]
    unfold tieStore
    rw [List.filterMap_cons, List.filterMap_cons, List.filterMap_nil]
    rw [hpick "http://a:1" (by decide), hpick "http://b:2" (by decide)]
  have hno : ¬ poolOrder ((-1 : ℝ), "http://a:1") ((-1 : ℝ), "http://b:2") := by
    intro h
    rcases h with h | ⟨h1, h2⟩
    · exact absurd h (lt_irrefl _)
    · exact absurd h2 (by rw [String.le_iff_toList_le]; decide)
  have hpool : (fill_pool 0 (-5) tieStore []).2
      = [((-1 : ℝ), "http://b:2"), ((-1 : ℝ), "http://a:1")] := by
    show sortDesc ([] ++ (fill_scan 0 (-5) tieStore).2) = _
    rw [hscan]
    unfold sortDesc
    rw [List.nil_append]
    show List.orderedInsert poolOrder ((-1 : ℝ), "http://a:1")
      (List.orderedInsert poolOrder ((-1 : ℝ), "http://b:2") []) = _
    rw [List.orderedInsert, List.orderedInsert, if_neg hno, List.orderedInsert]
  rw [hpool]
  intro h
  have h2 := (List.pairwise_cons.mp h).1 ((-1 : ℝ), "http://a:1") (by simp)
  rcases h2 with h3 | ⟨h3, h4⟩
  · exact absurd h3 (lt_irrefl _)
  · exact absurd h4 (by rw [String.le_iff_toList_le]; decide)

/-- C10: the `_fill_pool` scan changes only the `score` field of scanned
records: the store keeps the same keys in the same order with identical
`used_count`, `success_count`, `total_seconds`, `last_fail` and `timestamp`
fields, and no record is created or deleted. -/
theorem C10_fill_pool_frame :
    ∀ (now L : ℝ) (store : List (String × ProxyStat)) (ppool : List (ℝ × String)),
      (fill_pool now L store ppool).1 = store.map (updRecord now)
      ∧ ((fill_pool now L store ppool).1).map (fun e => e.1) = store.map (fun e => e.1)
      ∧ ((fill_pool now L store ppool).1).map
            (fun e => (e.2.used_count, e.2.success_count, e.2.total_seconds,
              e.2.last_fail, e.2.timestamp))
          = store.map (fun e => (e.2.used_count, e.2.success_count, e.2.total_seconds,
              e.2.last_fail, e.2.timestamp))
      ∧ ((fill_pool now L store ppool).1).length = store.length := by
  intro now L store ppool
  have hstore : (fill_pool now L store ppool).1 = store.map (updRecord now) :=
    fill_scan_store now L store
  have hkey : ∀ e : String × ProxyStat, (updRecord now e).1 = e.1 := by
    intro e
    unfold updRecord
    split_ifs <;> rfl
  have hfields : ∀ e : String × ProxyStat,
      ((updRecord now e).2.used_count, (updRecord now e).2.success_count,
        (updRecord now e).2.total_seconds, (updRecord now e).2.last_fail,
        (updRecord now e).2.timestamp)
      = (e.2.used_count, e.2.success_count, e.2.total_seconds, e.2.last_fail,
        e.2.timestamp) := by
    intro e
    unfold updRecord setScore
    split_ifs <;> rfl
  refine ⟨hstore, ?_, ?_, ?_⟩
  · rw [hstore, List.map_map]
    exact List.map_congr_left fun e _ => hkey e
  · rw [hstore, List.map_map]
    exact List.map_congr_left fun e _ => hfields e
  · rw [hstore, List.length_map]

/-- The `good` set after `mark_dead` is the previous `good` set with the
proxy removed (the conditional `discard` equals an unconditional erase). -/
theorem mark_dead_good (st : FeedbackState) (x : String) :
    (mark_dead st x).good = st.good.erase x := by
  unfold mark_dead
  split_ifs with h
  · rfl
  · exact (Finset.erase_eq_of_not_mem h).symm

/-- C8 (amended): `mark_dead` removes the proxy from `good` (if present)
before adding it to `dead`, so immediately after `mark_dead x` the proxy is
not in `good`, and `mark_dead` preserves disjointness of the two sets; but
`mark_good` does not remove from `dead`, so after
`mark_good(x); mark_dead(x); mark_good(x)` the proxy is in `good` and still
in `dead` — the two sets are not disjoint after that sequence. -/
theorem C8_feedback_sets :
    ∀ (st : FeedbackState) (x : String),
      x ∉ (mark_dead st x).good
      ∧ (Disjoint st.good st.dead →
          Disjoint (mark_dead st x).good (mark_dead st x).dead)
      ∧ x ∈ (mark_good (mark_dead (mark_good st x) x) x).good
      ∧ x ∈ (mark_good (mark_dead (mark_good st x) x) x).dead := by
  intro st x
  refine ⟨?_, ?_, ?_, ?_⟩
  · rw [mark_dead_good]
    exact Finset.not_mem_erase x st.good
  · intro hd
    rw [Finset.disjoint_left]
    intro a ha hamem
    rw [mark_dead_good] at ha
    have h1 := Finset.mem_erase.mp ha
    have h2 : a = x ∨ a ∈ st.dead := Finset.mem_insert.mp hamem
    rcases h2 with h2 | h2
    · exact h1.1 h2
    · exact Finset.disjoint_left.mp hd h1.2 h2
  · exact Finset.mem_insert_self x _
  · exact Finset.mem_insert_self x _

/-- Counterexample for C8: starting from empty feedback sets, the sequence
`mark_good(x); mark_dead(x); mark_good(x)` leaves `x` in `good` and in
`dead` simultaneously — the two sets are not disjoint, contrary to the
claimed invariant. -/
theorem C8_disjointness_counterexample :
    "http://a:1" ∈ fbSeq.good ∧ "http://a:1" ∈ fbSeq.dead
    ∧ ¬ Disjoint fbSeq.good fbSeq.dead := by
  have hg : "http://a:1" ∈ fbSeq.good := Finset.mem_insert_self _ _
  have hd : "http://a:1" ∈ fbSeq.dead := Finset.mem_insert_self _ _
  exact ⟨hg, hd, fun h => (Finset.disjoint_left.mp h hg) hd⟩

/-- Witness for C8's amended theorem on concrete empty initial sets and a
concrete proxy key. -/
theorem C8_feedback_sets_witness :
    "http://a:1" ∉ (mark_dead ⟨∅, ∅⟩ "http://a:1").good
    ∧ Disjoint (mark_dead ⟨∅, ∅⟩ "http://a:1").good
        (mark_dead ⟨∅, ∅⟩ "http://a:1").dead
    ∧ "http://a:1" ∈ (mark_good (mark_dead (mark_good ⟨∅, ∅⟩ "http://a:1")
        "http://a:1") "http://a:1").good
    ∧ "http://a:1" ∈ (mark_good (mark_dead (mark_good ⟨∅, ∅⟩ "http://a:1")
        "http://a:1") "http://a:1").dead :=
  ⟨(C8_feedback_sets ⟨∅, ∅⟩ "http://a:1").1,
   (C8_feedback_sets ⟨∅, ∅⟩ "http://a:1").2.1 (by simp),
   (C8_feedback_sets ⟨∅, ∅⟩ "http://a:1").2.2.1,
   (C8_feedback_sets ⟨∅, ∅⟩ "http://a:1").2.2.2⟩

/-- C4 (amended): on a store whose keys all match the scan pattern,
`del_all_fails` keeps exactly the records whose stored score exceeds
`LOWEST_SCORE - 2` (deleting exactly those with score at or below it),
leaves the survivors untouched and in order, and a second immediate run
removes nothing. -/
theorem C4_prune_exact :
    ∀ (L : ℝ) (store : List (String × ProxyStat)),
      (∀ e ∈ store, matchGlobHttp e.1 = true) →
        (∀ (k : String) (st : ProxyStat), (k, st) ∈ del_all_fails L store ↔
          ((k, st) ∈ store ∧ ¬(st.score ≤ L - 2)))
        ∧ (del_all_fails L store).Sublist store
        ∧ del_all_fails L (del_all_fails L store) = del_all_fails L store := by
  intro L store hall
  refine ⟨?_, List.filter_sublist store, ?_⟩
  · intro k st
    unfold del_all_fails
    rw [List.mem_filter]
    constructor
    · rintro ⟨hmem, hpred⟩
      refine ⟨hmem, ?_⟩
      rw [hall _ hmem] at hpred
      simp only [Bool.true_and, Bool.not_eq_true', decide_eq_false_iff_not] at hpred
      exact hpred
    · rintro ⟨hmem, hnle⟩
      refine ⟨hmem, ?_⟩
      rw [hall _ hmem]
      simp only [Bool.true_and, Bool.not_eq_true', decide_eq_false_iff_not]
      exact hnle
  · unfold del_all_fails
    rw [List.filter_filter]
    apply List.filter_congr
    intro a _
    rw [Bool.and_self]

/-- Witness for C4's amended theorem on the concrete two-record store with
threshold -3 (prune floor -5): membership, sublist and idempotence hold. -/
theorem C4_prune_exact_witness :
    (∀ (k : String) (st : ProxyStat), (k, st) ∈ del_all_fails (-3) pruneStore ↔
      ((k, st) ∈ pruneStore ∧ ¬(st.score ≤ (-3) - 2)))
    ∧ (del_all_fails (-3) pruneStore).Sublist pruneStore
    ∧ del_all_fails (-3) (del_all_fails (-3) pruneStore)
        = del_all_fails (-3) pruneStore :=
  C4_prune_exact (-3) pruneStore (by decide)

/-- Counterexample for C4's return value: on `pruneStore` with threshold -3
exactly one record (stored score -6 ≤ -5) is removed, yet the Python
function body of `del_all_fails` has no return statement, so the call
returns `None` rather than the count of removed records. -/
theorem C4_none_return_counterexample :
    (del_all_fails (-3) pruneStore).length = 1
    ∧ pruneStore.length = 2
    ∧ del_all_fails_ret = none
    ∧ del_all_fails_ret
        ≠ some (pruneStore.length - (del_all_fails (-3) pruneStore).length) := by
  have hda : decide (((⟨1, 0, 0, "", 0, -6⟩ : ProxyStat)).score ≤ (-3 : ℝ) - 2) = true :=
    decide_eq_true (by norm_num)
  have hdb : decide (((⟨1, 1, 1, "", 0, 0⟩ : ProxyStat)).score ≤ (-3 : ℝ) - 2) = false :=
    decide_eq_false (by norm_num)
  have hfil : del_all_fails (-3) pruneStore = [("http://b:2", ⟨1, 1, 1, "", 0, 0⟩)] := by
    unfold del_all_fails pruneStore
    rw [List.filter_cons, List.filter_cons, List.filter_nil]
    rw [show matchGlobHttp "http://a:1" = true from by decide]
    rw [show matchGlobHttp "http://b:2" = true from by decide]
    rw [hda, hdb]
    rfl
  refine ⟨by rw [hfil]; rfl, rfl, rfl, by rw [hfil]; simp [del_all_fails_ret]⟩

/-- A complete raw hash scores without raising: all six field reads
succeed. -/
theorem cal_scoreE_complete (now : ℝ) (r : RawStat) (h : isComplete r) :
    ∃ v : ℝ, cal_scoreE now r = Except.ok v := by
  obtain ⟨h1, h2, h3, h4, h5, h6⟩ := h
  rcases Option.isSome_iff_exists.mp h1 with ⟨u, hu⟩
  rcases Option.isSome_iff_exists.mp h2 with ⟨s, hs⟩
  rcases Option.isSome_iff_exists.mp h3 with ⟨t, ht⟩
  rcases Option.isSome_iff_exists.mp h4 with ⟨lf, hlf⟩
  rcases Option.isSome_iff_exists.mp h5 with ⟨ts, hts⟩
  rcases Option.isSome_iff_exists.mp h6 with ⟨sc, hsc⟩
  refine ⟨cal_score now ⟨u, s, t, lf, ts, sc⟩, ?_⟩
  unfold cal_scoreE
  rw [hu, hs, ht, hlf, hts, hsc]
  rfl

/-- C9 (amended): `_fill_pool` has no per-record error handling: as soon as
the scan reaches a pattern-matching record whose hash is missing
`used_count` (all earlier records being complete), `cal_score` raises
`KeyError`, which propagates and aborts the entire rebuild — the remaining
records are not processed and no pool is produced. -/
theorem C9_malformed_record_aborts :
    ∀ (now L : ℝ) (pre : List (String × RawStat)) (k : String) (r : RawStat)
      (rest : List (String × RawStat)),
      (∀ e ∈ pre, isComplete e.2) → matchGlobHttp k = true → r.used_count = none →
        fill_scanE now L (pre ++ (k, r) :: rest) = Except.error "used_count" := by
  intro now L pre
  induction pre with
  | nil =>
    intro k r rest hall hm hr
    rw [List.nil_append]
    unfold fill_scanE
    rw [if_pos hm]
    have hc : cal_scoreE now r = Except.error "used_count" := by
      unfold cal_scoreE
      rw [hr]
      rfl
    rw [hc]
  | cons e pre ih =>
    intro k r rest hall hm hr
    have he : isComplete e.2 := hall e (List.mem_cons_self e pre)
    have hpre : ∀ x ∈ pre, isComplete x.2 := fun x hx => hall x (List.mem_cons_of_mem e hx)
    obtain ⟨v, hv⟩ := cal_scoreE_complete now e.2 he
    rw [List.cons_append]
    unfold fill_scanE
    by_cases hme : matchGlobHttp e.1 = true
    · rw [if_pos hme, hv, ih k r rest hpre hm hr]
    · rw [if_neg hme, ih k r rest hpre hm hr]

/-- Counterexample for C9: scanning `rawStore` (a complete record followed
by a record missing `used_count`) does not skip the malformed record and
continue — the whole scan evaluates to the propagated `KeyError`. -/
theorem C9_malformed_record_counterexample :
    fill_scanE 0 0 rawStore = Except.error "used_count"
    ∧ (∃ err : String, fill_scanE 0 0 rawStore = Except.error err) := by
  constructor
  · rfl
  · exact ⟨"used_count", rfl⟩

/-- Witness for C9's amended theorem at the concrete store: one complete
record before a record missing `used_count`. -/
theorem C9_malformed_record_aborts_witness :
    fill_scanE 0 0
        ([("http://a:1", ⟨some 1, some 1, some 1, some "", some 0, some 0⟩)]
          ++ ("http://b:2", ⟨none, some 1, some 1, some "", some 0, some 0⟩) :: [])
      = Except.error "used_count" :=
  C9_malformed_record_aborts 0 0
    [("http://a:1", ⟨some 1, some 1, some 1, some "", some 0, some 0⟩)]
    "http://b:2" ⟨none, some 1, some 1, some "", some 0, some 0⟩ []
    (by
      intro e he
      rw [List.mem_singleton] at he
      subst he
      exact ⟨rfl, rfl, rfl, rfl, rfl, rfl⟩)
    (by decide) rfl

end Haipproxy
